import Mathlib

set_option maxHeartbeats 1000000

/-!
Verification of the chain-synchronization and ledger-state engine of a
blockchain explorer.  The Python services (`block_service.py`,
`transaction_service.py`, `sync_service.py`, `bitcoin_rpc.py`) are embedded
shallowly: the relational store is a record of row lists, RPC payload
dictionaries become structures of optional fields, and the remote node is an
oracle of `Except`-valued calls.
-/

deriving instance DecidableEq for Except

namespace Explorer

/-- Truncation toward zero of a rational, matching Python `int()` applied to a
`Decimal`/float product. -/
def pyTrunc (q : Rat) : Int := if q < 0 then -((-q).floor) else q.floor

/-- Python truthiness of an optional string (`None` and `""` are falsy). -/
def pyTruthy : Option String → Bool
  | none => false
  | some s => !(s == "")

/-- Payload fragment `vin[i]["scriptSig"]`. -/
structure ScriptSig where
  hex : Option String := none
  deriving Repr, DecidableEq

/-- Payload fragment `vout[i]["scriptPubKey"]`. -/
structure ScriptPubKey where
  hex : Option String := none
  addresses : Option (List String) := none
  address : Option String := none
  deriving Repr, DecidableEq

/-- One entry of a transaction payload's `vin` list. -/
structure VinPayload where
  txid : Option String := none
  vout : Option Nat := none
  scriptSig : Option ScriptSig := none
  sequence : Option Int := none
  coinbase : Option String := none
  deriving Repr, DecidableEq

/-- One entry of a transaction payload's `vout` list. -/
structure VoutPayload where
  n : Option Nat := none
  value : Option Rat := none
  scriptPubKey : Option ScriptPubKey := none
  deriving Repr, DecidableEq

/-- An RPC transaction dictionary as consumed by `save_transaction_to_db`.
`txid` is the only key read unconditionally (a missing key would be a
`KeyError` at every call site). -/
structure TxPayload where
  txid : String
  blockhash : Option String := none
  blockheight : Option Nat := none
  version : Option Int := none
  locktime : Option Int := none
  size : Option Int := none
  vsize : Option Int := none
  weight : Option Int := none
  fee : Option Rat := none
  vin : Option (List VinPayload) := none
  vout : Option (List VoutPayload) := none
  deriving Repr, DecidableEq

/-- An element of a block payload's `tx` list: either a bare txid string or a
full embedded transaction dictionary (`isinstance(tx_data, str)` test in
`sync_latest_blocks`). -/
inductive TxItem where
  | txidOnly (txid : String)
  | full (payload : TxPayload)
  deriving Repr, DecidableEq

/-- An RPC block dictionary as consumed by `save_block_to_db`.  `hash` and
`height` are read with mandatory indexing in the source. -/
structure BlockPayload where
  hash : String
  height : Nat
  version : Option Int := none
  merkleroot : Option String := none
  time : Option Int := none
  nonce : Option Int := none
  bits : Option String := none
  difficulty : Option Rat := none
  chainwork : Option String := none
  nTx : Option Nat := none
  size : Option Int := none
  weight : Option Int := none
  previousblockhash : Option String := none
  nextblockhash : Option String := none
  tx : Option (List TxItem) := none
  deriving Repr, DecidableEq

/-- A row of the `blocks` table (model of `app.models.block.Block`). -/
structure BlockRow where
  id : Nat
  hash : String
  height : Nat
  version : Option Int
  merkleroot : Option String
  time : Option Int
  nonce : Option Int
  bits : Option String
  difficulty : Option Rat
  chainwork : Option String
  n_tx : Nat
  size : Option Int
  weight : Option Int
  previous_block_hash : Option String
  next_block_hash : Option String
  deriving Repr, DecidableEq

/-- A row of the `transactions` table (model of
`app.models.transaction.Transaction`). -/
structure TransactionRow where
  id : Nat
  txid : String
  block_hash : Option String
  block_height : Option Nat
  version : Option Int
  locktime : Option Int
  size : Option Int
  vsize : Option Int
  weight : Option Int
  fee : Option Int
  deriving Repr, DecidableEq

/-- A row of the `transaction_inputs` table. -/
structure InputRow where
  transaction_id : Nat
  vout : Option Nat
  prev_txid : Option String
  script_sig : Option String
  sequence : Option Int
  deriving Repr, DecidableEq

/-- A row of the `transaction_outputs` table. -/
structure OutputRow where
  transaction_id : Nat
  n : Option Nat
  value : Int
  script_pubkey : Option String
  address : Option String
  deriving Repr, DecidableEq

/-- The relational mirror: the four tables plus the autoincrement counters
for the surrogate primary keys that the services read back after a flush. -/
structure DB where
  blocks : List BlockRow := []
  transactions : List TransactionRow := []
  inputs : List InputRow := []
  outputs : List OutputRow := []
  nextBlockRowId : Nat := 1
  nextTxRowId : Nat := 1
  deriving Repr, DecidableEq

def emptyDB : DB := {}

/-- Model of `TransactionService.get_transaction_by_txid`: first row whose txid
matches. -/
def get_transaction_by_txid (db : DB) (txid : String) : Option TransactionRow :=
  db.transactions.find? (fun t => t.txid == txid)

/-- Model of `BlockService.get_block_by_hash`: first row whose hash matches. -/
def get_block_by_hash (db : DB) (h : String) : Option BlockRow :=
  db.blocks.find? (fun b => b.hash == h)

/-- Model of `BlockService.get_block_by_height`: first row whose height matches. -/
def get_block_by_height (db : DB) (height : Nat) : Option BlockRow :=
  db.blocks.find? (fun b => b.height == height)

/-- Model of `query(Block).order_by(desc(Block.height)).first()`: a block of maximal
height, if any. -/
def latestBlock (db : DB) : Option BlockRow :=
  db.blocks.foldl
    (fun acc b =>
      match acc with
      | none => some b
      | some m => if b.height > m.height then some b else some m)
    none

/-- Model of `BlockService.get_latest_block_height`: height of the maximal block, `0`
when the table is empty. -/
def get_latest_block_height (db : DB) : Nat :=
  match latestBlock db with
  | some b => b.height
  | none => 0

/-- Model of `TransactionService._calculate_fee`: a reported fee wins (absolute value,
converted to satoshi); else a leading coinbase marker gives fee `0`; else the
fee is left unknown.  `tx_data.get("vin", [{}])[0]` raises `IndexError` on an
empty `vin` list, which the enclosing handler converts to `None`; an absent
`vin` key defaults to `[{}]`, whose head has no coinbase marker. -/
def calculate_fee (tx : TxPayload) : Option Int :=
  match tx.fee with
  | some f => some (pyTrunc (|f| * 100000000))
  | none =>
    match tx.vin with
    | some [] => none
    | some (v :: _) => if pyTruthy v.coinbase then some 0 else none
    | none => none

/-- Address extraction from `scriptPubKey`: first entry of `addresses` when
that list is non-empty and its head truthy, else the scalar `address` key. -/
def extract_address (spk : Option ScriptPubKey) : Option String :=
  let s := spk.getD {}
  let addresses := s.addresses.getD []
  let address := addresses.head?
  if pyTruthy address then address else s.address

/-- Input row built from one `vin` entry for a transaction row id. -/
def txInputRow (txRowId : Nat) (v : VinPayload) : InputRow :=
  { transaction_id := txRowId
    vout := v.vout
    prev_txid := v.txid
    script_sig := (v.scriptSig.getD {}).hex
    sequence := v.sequence }

/-- Output row built from one `vout` entry for a transaction row id; the BTC
value is converted to satoshi by multiplication and `int()` truncation. -/
def txOutputRow (txRowId : Nat) (v : VoutPayload) : OutputRow :=
  { transaction_id := txRowId
    n := v.n
    value := pyTrunc ((v.value.getD 0) * 100000000)
    script_pubkey := (v.scriptPubKey.getD {}).hex
    address := extract_address v.scriptPubKey }

/-- Model of `TransactionService.save_transaction_to_db`: if a row with the payload's
txid exists it is returned unchanged; otherwise a new transaction row plus
its input and output rows are appended and committed. -/
def save_transaction_to_db (db : DB) (tx : TxPayload) : DB × TransactionRow :=
  match get_transaction_by_txid db tx.txid with
  | some existing => (db, existing)
  | none =>
    let row : TransactionRow :=
      { id := db.nextTxRowId
        txid := tx.txid
        block_hash := tx.blockhash
        block_height := tx.blockheight
        version := tx.version
        locktime := tx.locktime
        size := tx.size
        vsize := tx.vsize
        weight := tx.weight
        fee := calculate_fee tx }
    let newInputs := (tx.vin.getD []).map (txInputRow row.id)
    let newOutputs := (tx.vout.getD []).map (txOutputRow row.id)
    ({ db with
        transactions := db.transactions ++ [row]
        inputs := db.inputs ++ newInputs
        outputs := db.outputs ++ newOutputs
        nextTxRowId := db.nextTxRowId + 1 }, row)

/-- Model of `BlockService.save_block_to_db`: if a row with the payload's hash exists
it is returned unchanged; otherwise a new block row is appended, with `n_tx`
defaulting to the length of the payload's `tx` list. -/
def save_block_to_db (db : DB) (bd : BlockPayload) : DB × BlockRow :=
  match get_block_by_hash db bd.hash with
  | some existing => (db, existing)
  | none =>
    let row : BlockRow :=
      { id := db.nextBlockRowId
        hash := bd.hash
        height := bd.height
        version := bd.version
        merkleroot := bd.merkleroot
        time := bd.time
        nonce := bd.nonce
        bits := bd.bits
        difficulty := bd.difficulty
        chainwork := bd.chainwork
        n_tx := bd.nTx.getD (bd.tx.getD []).length
        size := bd.size
        weight := bd.weight
        previous_block_hash := bd.previousblockhash
        next_block_hash := bd.nextblockhash }
    ({ db with blocks := db.blocks ++ [row], nextBlockRowId := db.nextBlockRowId + 1 },
     row)

/-! ## Remote node oracle and sync orchestrator (`sync_service.py`) -/

/-- The remote node as seen by the orchestrator: each call either returns a
payload or raises (`Except.error`).  `fetch_block_from_rpc` abstracts
`BlockService.fetch_block_from_rpc(height)` (hash lookup, verbosity-2 block
fetch and stats merge) as one fallible unit, which is exactly the boundary at
which `sync_latest_blocks` catches per-block failures. -/
structure RpcOracle where
  get_block_count : Except String Nat
  fetch_block_from_rpc : Nat → Except String BlockPayload
  get_raw_transaction : String → Except String TxPayload
  get_block_hash : Nat → Except String String
  get_block : String → Except String BlockPayload

/-- The orchestrator's mutable state: the store session plus the
`_is_syncing` guard flag. -/
structure SyncState where
  db : DB
  is_syncing : Bool
  deriving Repr, DecidableEq

/-- The counters of the dictionary returned by `sync_latest_blocks`. -/
structure SyncRunResult where
  synced_blocks : Nat
  synced_transactions : Nat
  errors : Nat
  deriving Repr, DecidableEq

/-- The heights `range(start_height, end_height + 1)` visited by one
`sync_latest_blocks` run, with `start = db_height + 1` and
`end = min(start + max_blocks - 1, network_height)`. -/
def syncHeights (db_height max_blocks network_height : Nat) : List Nat :=
  let start_height := db_height + 1
  let end_height := min (start_height + max_blocks - 1) network_height
  List.range' start_height (end_height + 1 - start_height)

/-- Ingestion of one element of a block's `tx` list inside
`sync_latest_blocks`: a bare txid is first fetched in full (a fetch failure
is caught, counted, and skipped), an embedded payload is saved directly.  The
accumulator is `(db, synced_transactions, errors)`. -/
def syncTxItem (o : RpcOracle) (acc : DB × Nat × Nat) (item : TxItem) :
    DB × Nat × Nat :=
  let (db, st, er) := acc
  match item with
  | .txidOnly txid =>
    match o.get_raw_transaction txid with
    | .error _ => (db, st, er + 1)
    | .ok full => ((save_transaction_to_db db full).1, st + 1, er)
  | .full p => ((save_transaction_to_db db p).1, st + 1, er)

/-- One iteration of the height loop of `sync_latest_blocks`.  A fetch
failure is caught at the per-block boundary, counted, and the loop continues.
On success the source then calls the async `save_block_to_db` WITHOUT
awaiting it (sync_service.py line 138), so the coroutine never runs and no
block row is persisted; only the `synced_blocks` counter is incremented,
after which the block's transactions are ingested. -/
def syncHeightStep (o : RpcOracle) (acc : DB × SyncRunResult) (height : Nat) :
    DB × SyncRunResult :=
  let (db, r) := acc
  match o.fetch_block_from_rpc height with
  | .error _ => (db, { r with errors := r.errors + 1 })
  | .ok bd =>
    match bd.tx with
    | none => (db, { r with synced_blocks := r.synced_blocks + 1 })
    | some items =>
      let (db2, st, er) := items.foldl (syncTxItem o) (db, r.synced_transactions, r.errors)
      (db2, { synced_blocks := r.synced_blocks + 1
              synced_transactions := st
              errors := er })

/-- Model of `SyncService.sync_latest_blocks(max_blocks)`: fails at once when already
syncing (guard untouched); otherwise sets the guard, computes the height
window, returns a zero no-op result when the mirror is already at or beyond
the remote height, else folds the per-height step over the ascending heights.
The `finally` clause clears the guard on every exit path past the initial
check. -/
def sync_latest_blocks (o : RpcOracle) (st : SyncState) (max_blocks : Nat) :
    SyncState × Except String SyncRunResult :=
  if st.is_syncing then (st, .error "sync already running")
  else
    match o.get_block_count with
    | .error e => ({ st with is_syncing := false }, .error e)
    | .ok network_height =>
      let db_height := get_latest_block_height st.db
      if db_height + 1 > network_height then
        ({ st with is_syncing := false }, .ok ⟨0, 0, 0⟩)
      else
        let (db, r) :=
          (syncHeights db_height max_blocks network_height).foldl
            (syncHeightStep o) (st.db, ⟨0, 0, 0⟩)
        ({ db := db, is_syncing := false }, .ok r)

/-- The counters of the dictionary returned by `sync_mempool`. -/
structure MempoolResult where
  synced_transactions : Nat
  errors : Nat
  deriving Repr, DecidableEq

/-- One iteration of the mempool loop: an already-stored txid is skipped,
otherwise the payload is copied with `blockhash` and `blockheight` popped and
saved. -/
def syncMempoolStep (acc : DB × MempoolResult) (tx : TxPayload) :
    DB × MempoolResult :=
  let (db, r) := acc
  match get_transaction_by_txid db tx.txid with
  | some _ => (db, r)
  | none =>
    let stripped := { tx with blockhash := none, blockheight := none }
    ((save_transaction_to_db db stripped).1,
     { r with synced_transactions := r.synced_transactions + 1 })

/-- Model of `SyncService.sync_mempool`, given the payload list produced by
`get_mempool_transactions`. -/
def sync_mempool (db : DB) (mempool : List TxPayload) : DB × MempoolResult :=
  mempool.foldl syncMempoolStep (db, ⟨0, 0⟩)

/-- The dictionary returned by a successful `handle_reorg`. -/
structure ReorgResult where
  orphaned_blocks : Nat
  common_ancestor_height : Nat
  deriving Repr, DecidableEq

/-- Model of `SyncService.handle_reorg(new_tip_hash)`.  The ancestor-walk loop body
reads `db_block.hash` where `db_block` is the coroutine returned by calling
the async `get_block_by_height` without `await` (sync_service.py line 368):
the coroutine object is truthy and has no `hash` attribute, so the first
iteration raises `AttributeError`, which the outer handler turns into a
rollback plus `SyncServiceError`.  Hence whenever the new tip's height is
positive the call fails with the store untouched (after `get_block_hash`
itself succeeded; its own failure is converted the same way).  Only a tip at
height `0` skips the loop: then every block of positive height and the
transactions linked to those blocks' hashes are deleted and committed. -/
def handle_reorg (o : RpcOracle) (db : DB) (new_tip_hash : String) :
    DB × Except String ReorgResult :=
  match o.get_block new_tip_hash with
  | .error e => (db, .error e)
  | .ok tip =>
    if tip.height > 0 then
      match o.get_block_hash tip.height with
      | .error e => (db, .error e)
      | .ok _ => (db, .error "AttributeError: coroutine object has no attribute hash")
    else
      let orphaned := db.blocks.filter (fun b => b.height > 0)
      let keep := db.blocks.filter (fun b => !(b.height > 0 : Bool))
      let txKeep := db.transactions.filter
        (fun t => !(orphaned.any (fun b => t.block_hash == some b.hash)))
      ({ db with blocks := keep, transactions := txKeep },
       .ok ⟨orphaned.length, 0⟩)

/-- Insertion into a height-descending list, modelling
`order_by(Block.height.desc())`. -/
def insertByHeightDesc (b : BlockRow) : List BlockRow → List BlockRow
  | [] => [b]
  | c :: rest =>
    if b.height ≥ c.height then b :: c :: rest else c :: insertByHeightDesc b rest

/-- The block table sorted by descending height. -/
def sortByHeightDesc (l : List BlockRow) : List BlockRow :=
  l.foldr insertByHeightDesc []

/-- Model of `query(Block).order_by(Block.height.desc()).limit(10).all()`: the ten
most recent mirrored blocks. -/
def recentBlocks (db : DB) (n : Nat) : List BlockRow :=
  (sortByHeightDesc db.blocks).take n

/-- The per-block loop of `check_for_reorg`: a failing remote hash lookup is
skipped (`except BitcoinRPCError: continue`), a differing hash returns `true`
immediately, and a matching hash moves to the next block. -/
def checkReorgLoop (o : RpcOracle) : List BlockRow → Bool
  | [] => false
  | b :: rest =>
    match o.get_block_hash b.height with
    | .error _ => checkReorgLoop o rest
    | .ok h => if h != b.hash then true else checkReorgLoop o rest

/-- Model of `SyncService.check_for_reorg`: `false` on an empty mirror, else the loop
over the ten most recent blocks. -/
def check_for_reorg (o : RpcOracle) (db : DB) : Bool :=
  let recent := recentBlocks db 10
  if recent.isEmpty then false else checkReorgLoop o recent

/-! ## RPC client retry loop (`bitcoin_rpc.py`) -/

/-- Outcome of one attempt of the `try` body of `_execute_rpc_call`: the call
returned, the node answered with a JSON-RPC rejection (`JSONRPCException`),
or a transport-level exception was raised (including a failed implicit
`_connect`). -/
inductive AttemptResult (α : Type) where
  | ok (v : α)
  | protocolError (msg : String)
  | transportError (msg : String)

/-- Result of `_execute_rpc_call` as a Python caller observes it: a value, a
raised `BitcoinRPCError`, or the implicit `None` obtained by falling off the
end of the `while` loop without returning or raising. -/
inductive RpcOutcome (α : Type) where
  | ok (v : α)
  | err (msg : String)
  | silent
  deriving DecidableEq

/-- The `while retry_count < max_retries` loop of `_execute_rpc_call`.
`attempt k` is the outcome of the try body when entered with
`retry_count = k`; `reconnectOk k` tells whether the `_reconnect` performed
after `retry_count` became `k` succeeds.  A protocol error is re-raised at
once; a transport error increments the counter and, below the ceiling,
reconnects — a failed reconnect is swallowed except on the last permitted
retry — while at the ceiling the loop raises the exhaustion error. -/
def executeRpcGo {α : Type} (attempt : Nat → AttemptResult α)
    (reconnectOk : Nat → Bool) (maxRetries retryCount : Nat) : RpcOutcome α :=
  if retryCount < maxRetries then
    match attempt retryCount with
    | .ok v => .ok v
    | .protocolError m => .err ("RPC error: " ++ m)
    | .transportError m =>
      let rc := retryCount + 1
      if rc < maxRetries then
        if reconnectOk rc then executeRpcGo attempt reconnectOk maxRetries rc
        else if rc == maxRetries - 1 then .err "reconnect failed"
        else executeRpcGo attempt reconnectOk maxRetries rc
      else .err ("max retries exhausted: " ++ m)
  else .silent
termination_by maxRetries - retryCount

/-- Model of `BitcoinRPCClient._execute_rpc_call`: the loop entered with
`max_retries = 3`, `retry_count = 0`. -/
def execute_rpc_call {α : Type} (attempt : Nat → AttemptResult α)
    (reconnectOk : Nat → Bool) : RpcOutcome α :=
  executeRpcGo attempt reconnectOk 3 0

/-! ## Address balance (`TransactionService.get_address_balance`) -/

/-- The fields of the dictionary returned by `get_address_balance`. -/
structure AddressBalanceResult where
  balance : Int
  total_received : Int
  total_spent : Int
  tx_count : Nat
  deriving Repr, DecidableEq

/-- Model of `query(TransactionOutput).filter(address == address).all()`. -/
def addressOutputs (db : DB) (address : String) : List OutputRow :=
  db.outputs.filter (fun o => o.address == some address)

/-- The ORM join `output.transaction.txid`: the transaction row whose id is
the output's foreign key, paired with the output.  `none` models the
`AttributeError` Python would raise on a dangling foreign key. -/
def outputJoin (db : DB) (o : OutputRow) : Option (OutputRow × String) :=
  (db.transactions.find? (fun t => t.id == o.transaction_id)).map
    (fun t => (o, t.txid))

/-- Model of `query(TransactionInput).filter(prev_txid == txid, vout == n).first()`;
SQLAlchemy turns an `== None` comparison into `IS NULL`, which plain `Option`
equality models. -/
def findSpendingInput (db : DB) (txid : String) (n : Option Nat) : Option InputRow :=
  db.inputs.find? (fun i => i.prev_txid == some txid && i.vout == n)

/-- The `spent_outputs` set of `get_address_balance`: the `(txid, n)` keys of
the outputs for which some stored input matches. -/
def spentKeys (db : DB) (pairs : List (OutputRow × String)) :
    List (String × Option Nat) :=
  (pairs.filter (fun p => (findSpendingInput db p.2 p.1.n).isSome)).map
    (fun p => (p.2, p.1.n))

/-- Model of `TransactionService.get_address_balance`: loads the address's outputs
(each joined with its producing transaction's txid — `none` models the
`AttributeError` on a dangling foreign key), marks as spent the `(txid, n)`
keys for which some input matches, and sums; `tx_count` is the size of the
set of producing txids. -/
def get_address_balance (db : DB) (address : String) :
    Option AddressBalanceResult :=
  match (addressOutputs db address).mapM (outputJoin db) with
  | none => none
  | some pairs =>
    some { balance := ((addressOutputs db address).map (fun o => o.value)).sum -
             ((pairs.filter
                 (fun p => decide ((p.2, p.1.n) ∈ spentKeys db pairs))).map
               (fun p => p.1.value)).sum
           total_received := ((addressOutputs db address).map
             (fun o => o.value)).sum
           total_spent := ((pairs.filter
               (fun p => decide ((p.2, p.1.n) ∈ spentKeys db pairs))).map
             (fun p => p.1.value)).sum
           tx_count := (pairs.map (fun p => p.2)).dedup.length }

/-! ## Helper definitions and lemmas -/

/-- Number of stored block rows carrying a given hash. -/
def countBlocksWithHash (db : DB) (h : String) : Nat :=
  (db.blocks.filter (fun b => b.hash == h)).length

/-- Number of stored transaction rows carrying a given txid. -/
def countTxWithTxid (db : DB) (txid : String) : Nat :=
  (db.transactions.filter (fun t => t.txid == txid)).length

theorem find?_append_of_none {α : Type} {p : α → Bool} {l₁ l₂ : List α}
    (h : l₁.find? p = none) : (l₁ ++ l₂).find? p = l₂.find? p := by
  induction l₁ with
  | nil => rfl
  | cons a l ih =>
    cases hpa : p a with
    | true =>
      rw [List.find?_cons_of_pos _ hpa] at h
      exact absurd h (by simp)
    | false =>
      rw [List.find?_cons_of_neg _ (by simp [hpa])] at h
      rw [List.cons_append, List.find?_cons_of_neg _ (by simp [hpa])]
      exact ih h

theorem save_block_to_db_existing {db : DB} {bd : BlockPayload} {b : BlockRow}
    (h : get_block_by_hash db bd.hash = some b) :
    save_block_to_db db bd = (db, b) := by
  unfold save_block_to_db
  rw [h]

theorem save_transaction_to_db_existing {db : DB} {tx : TxPayload}
    {t : TransactionRow} (h : get_transaction_by_txid db tx.txid = some t) :
    save_transaction_to_db db tx = (db, t) := by
  unfold save_transaction_to_db
  rw [h]

theorem get_block_by_hash_after_save (db : DB) (bd : BlockPayload) :
    get_block_by_hash (save_block_to_db db bd).1 bd.hash =
      some (save_block_to_db db bd).2 := by
  unfold save_block_to_db get_block_by_hash
  cases hfind : db.blocks.find? (fun b => b.hash == bd.hash) with
  | some b => simp [hfind]
  | none =>
    simp only [hfind]
    rw [find?_append_of_none hfind]
    simp

theorem get_transaction_by_txid_after_save (db : DB) (tx : TxPayload) :
    get_transaction_by_txid (save_transaction_to_db db tx).1 tx.txid =
      some (save_transaction_to_db db tx).2 := by
  unfold save_transaction_to_db get_transaction_by_txid
  cases hfind : db.transactions.find? (fun t => t.txid == tx.txid) with
  | some t => simp [hfind]
  | none =>
    simp only [hfind]
    rw [find?_append_of_none hfind]
    simp

theorem countBlocksWithHash_of_find?_none {db : DB} {h : String}
    (hf : db.blocks.find? (fun b => b.hash == h) = none) :
    countBlocksWithHash db h = 0 := by
  unfold countBlocksWithHash
  rw [List.find?_eq_none] at hf
  simp only [List.length_eq_zero]
  exact List.filter_eq_nil_iff.mpr hf

theorem countTxWithTxid_of_find?_none {db : DB} {txid : String}
    (hf : db.transactions.find? (fun t => t.txid == txid) = none) :
    countTxWithTxid db txid = 0 := by
  unfold countTxWithTxid
  rw [List.find?_eq_none] at hf
  simp only [List.length_eq_zero]
  exact List.filter_eq_nil_iff.mpr hf

theorem countBlocksWithHash_pos_of_find?_some {db : DB} {h : String}
    {b : BlockRow} (hf : db.blocks.find? (fun b => b.hash == h) = some b) :
    1 ≤ countBlocksWithHash db h := by
  unfold countBlocksWithHash
  have hp := List.find?_some hf
  have hmem : b ∈ db.blocks.filter (fun b => b.hash == h) :=
    List.mem_filter.mpr ⟨List.mem_of_find?_eq_some hf, hp⟩
  exact List.length_pos.mpr (List.ne_nil_of_mem hmem)

theorem countTxWithTxid_pos_of_find?_some {db : DB} {txid : String}
    {t : TransactionRow}
    (hf : db.transactions.find? (fun t => t.txid == txid) = some t) :
    1 ≤ countTxWithTxid db txid := by
  unfold countTxWithTxid
  have hp := List.find?_some hf
  have hmem : t ∈ db.transactions.filter (fun t => t.txid == txid) :=
    List.mem_filter.mpr ⟨List.mem_of_find?_eq_some hf, hp⟩
  exact List.length_pos.mpr (List.ne_nil_of_mem hmem)

/-! ## C2: idempotent ingestion -/

/-- C2: for a block payload whose hash is already stored, `save_block_to_db`
returns the existing row with the store unchanged; likewise
`save_transaction_to_db` for a stored txid; and ingesting the same payload
twice leaves exactly one stored row, returned with the same identifier both
times. -/
theorem C2_ingestion_idempotent :
    (∀ (db : DB) (bd : BlockPayload) (b : BlockRow),
        get_block_by_hash db bd.hash = some b →
        save_block_to_db db bd = (db, b)) ∧
    (∀ (db : DB) (tx : TxPayload) (t : TransactionRow),
        get_transaction_by_txid db tx.txid = some t →
        save_transaction_to_db db tx = (db, t)) ∧
    (∀ (db : DB) (bd : BlockPayload),
        countBlocksWithHash db bd.hash ≤ 1 →
        (save_block_to_db (save_block_to_db db bd).1 bd).1 =
            (save_block_to_db db bd).1 ∧
        (save_block_to_db (save_block_to_db db bd).1 bd).2 =
            (save_block_to_db db bd).2 ∧
        countBlocksWithHash (save_block_to_db db bd).1 bd.hash = 1) ∧
    (∀ (db : DB) (tx : TxPayload),
        countTxWithTxid db tx.txid ≤ 1 →
        (save_transaction_to_db (save_transaction_to_db db tx).1 tx).1 =
            (save_transaction_to_db db tx).1 ∧
        (save_transaction_to_db (save_transaction_to_db db tx).1 tx).2 =
            (save_transaction_to_db db tx).2 ∧
        countTxWithTxid (save_transaction_to_db db tx).1 tx.txid = 1) := by
  refine ⟨?_, ?_, ?_, ?_⟩
  · intro db bd b h
    exact save_block_to_db_existing h
  · intro db tx t h
    exact save_transaction_to_db_existing h
  · intro db bd hcount
    have hsecond := save_block_to_db_existing (get_block_by_hash_after_save db bd)
    refine ⟨by rw [hsecond], by rw [hsecond], ?_⟩
    unfold save_block_to_db get_block_by_hash at *
    cases hfind : db.blocks.find? (fun b => b.hash == bd.hash) with
    | some b =>
      simp only [hfind]
      have h1 := countBlocksWithHash_pos_of_find?_some hfind
      omega
    | none =>
      simp only [hfind]
      have h0 := countBlocksWithHash_of_find?_none hfind
      unfold countBlocksWithHash at *
      simp only [List.filter_append, List.length_append, h0]
      simp [List.length_eq_zero] at h0
      simp [h0]
  · intro db tx hcount
    have hsecond :=
      save_transaction_to_db_existing (get_transaction_by_txid_after_save db tx)
    refine ⟨by rw [hsecond], by rw [hsecond], ?_⟩
    unfold save_transaction_to_db get_transaction_by_txid at *
    cases hfind : db.transactions.find? (fun t => t.txid == tx.txid) with
    | some t =>
      simp only [hfind]
      have h1 := countTxWithTxid_pos_of_find?_some hfind
      omega
    | none =>
      simp only [hfind]
      have h0 := countTxWithTxid_of_find?_none hfind
      unfold countTxWithTxid at *
      simp only [List.filter_append, List.length_append, h0]
      simp [List.length_eq_zero] at h0
      simp [h0]

/-- Witness for C2 at concrete inputs. -/
theorem C2_ingestion_idempotent_witness :
    save_block_to_db { emptyDB with
        blocks := [⟨1, "bh", 7, none, none, none, none, none, none, none, 0,
                    none, none, none, none⟩] }
      { hash := "bh", height := 7 } =
      ({ emptyDB with
          blocks := [⟨1, "bh", 7, none, none, none, none, none, none, none, 0,
                      none, none, none, none⟩] },
        ⟨1, "bh", 7, none, none, none, none, none, none, none, 0,
         none, none, none, none⟩) ∧
    countTxWithTxid (save_transaction_to_db emptyDB { txid := "tt" }).1 "tt" = 1 := by
  constructor
  · exact C2_ingestion_idempotent.1 _ _ _ (by decide)
  · exact ((C2_ingestion_idempotent.2.2.2 emptyDB { txid := "tt" }) (by decide)).2.2

/-! ## C1: re-ingesting a stored txid with block fields -/

/-- The store after ingesting txid `"aa"` from the mempool (no block
fields). -/
def c1Db : DB := (save_transaction_to_db emptyDB { txid := "aa" }).1

/-- The same transaction as it arrives later via block sync, now carrying the
confirmation fields. -/
def c1ConfirmedPayload : TxPayload :=
  { txid := "aa", blockhash := some "bh", blockheight := some 100 }

/-- C1 counterexample: re-ingesting txid `"aa"` with `blockhash`/`blockheight`
set does NOT update the stored row — the row keeps its null block link and the
store is unchanged, refuting the claimed block-link update. -/
theorem C1_counterexample :
    (save_transaction_to_db c1Db c1ConfirmedPayload).2.block_hash = none ∧
    (save_transaction_to_db c1Db c1ConfirmedPayload).2.block_height = none ∧
    (save_transaction_to_db c1Db c1ConfirmedPayload).1 = c1Db := by
  decide

/-- C1 amended: re-ingesting a payload whose txid is already stored — in
particular a confirmed payload now carrying the block fields — returns the
existing row unchanged and leaves the store unmodified: no second row is
created and the row does NOT gain the block link. -/
theorem C1_reingest_returns_existing_unchanged (db : DB) (tx : TxPayload)
    (ex : TransactionRow)
    (hex : get_transaction_by_txid db tx.txid = some ex) :
    save_transaction_to_db db tx = (db, ex) :=
  save_transaction_to_db_existing hex

/-- Witness for the amended C1 at the concrete mempool-then-confirm input. -/
theorem C1_reingest_returns_existing_unchanged_witness :
    save_transaction_to_db c1Db c1ConfirmedPayload =
      (c1Db, ⟨1, "aa", none, none, none, none, none, none, none, none⟩) :=
  C1_reingest_returns_existing_unchanged c1Db c1ConfirmedPayload
    ⟨1, "aa", none, none, none, none, none, none, none, none⟩ (by decide)

/-! ## The height loop never persists blocks (missing `await` on line 138) -/

theorem save_transaction_to_db_blocks (db : DB) (tx : TxPayload) :
    (save_transaction_to_db db tx).1.blocks = db.blocks := by
  unfold save_transaction_to_db
  cases hfind : get_transaction_by_txid db tx.txid <;> simp [hfind]

theorem syncTxItem_blocks (o : RpcOracle) (acc : DB × Nat × Nat) (item : TxItem) :
    (syncTxItem o acc item).1.blocks = acc.1.blocks := by
  unfold syncTxItem
  rcases acc with ⟨db, st, er⟩
  cases item with
  | txidOnly txid =>
    cases h : o.get_raw_transaction txid <;>
      simp [h, save_transaction_to_db_blocks]
  | full p => simp [save_transaction_to_db_blocks]

theorem foldl_syncTxItem_blocks (o : RpcOracle) (items : List TxItem) :
    ∀ acc : DB × Nat × Nat,
      (items.foldl (syncTxItem o) acc).1.blocks = acc.1.blocks := by
  induction items with
  | nil => intro acc; rfl
  | cons item rest ih =>
    intro acc
    rw [List.foldl_cons, ih, syncTxItem_blocks]

theorem syncHeightStep_blocks (o : RpcOracle) (acc : DB × SyncRunResult)
    (height : Nat) : (syncHeightStep o acc height).1.blocks = acc.1.blocks := by
  unfold syncHeightStep
  rcases acc with ⟨db, r⟩
  cases h : o.fetch_block_from_rpc height with
  | error e => simp [h]
  | ok bd =>
    cases htx : bd.tx with
    | none => simp [h, htx]
    | some items =>
      have := foldl_syncTxItem_blocks o items (db, r.synced_transactions, r.errors)
      simp only [h, htx]
      rcases hfold : items.foldl (syncTxItem o) (db, r.synced_transactions, r.errors)
        with ⟨db2, st, er⟩
      rw [hfold] at this
      simpa using this

theorem foldl_syncHeightStep_blocks (o : RpcOracle) (heights : List Nat) :
    ∀ acc : DB × SyncRunResult,
      (heights.foldl (syncHeightStep o) acc).1.blocks = acc.1.blocks := by
  induction heights with
  | nil => intro acc; rfl
  | cons h rest ih =>
    intro acc
    rw [List.foldl_cons, ih, syncHeightStep_blocks]

/-- The run of `sync_latest_blocks` never writes a block row: the async
`save_block_to_db` on line 138 is called without `await`, so the store's
block table is unchanged on every path. -/
theorem sync_latest_blocks_blocks_unchanged (o : RpcOracle) (st : SyncState)
    (max_blocks : Nat) :
    (sync_latest_blocks o st max_blocks).1.db.blocks = st.db.blocks := by
  unfold sync_latest_blocks
  cases hs : st.is_syncing with
  | true => simp
  | false =>
    cases hc : o.get_block_count with
    | error e => simp [hs, hc]
    | ok network_height =>
      by_cases hle : get_latest_block_height st.db + 1 > network_height
      · simp [hs, hc, hle]
      · simp only [hs, hc, if_neg hle, Bool.false_eq_true, if_false]
        have := foldl_syncHeightStep_blocks o
          (syncHeights (get_latest_block_height st.db) max_blocks network_height)
          (st.db, ⟨0, 0, 0⟩)
        rcases hfold : (syncHeights (get_latest_block_height st.db) max_blocks
            network_height).foldl (syncHeightStep o) (st.db, ⟨0, 0, 0⟩)
          with ⟨db, r⟩
        rw [hfold] at this
        simpa using this

/-! ## C3: best-effort sync scenario -/

/-- The remote node of the C3 scenario: tip at height 10, every block fetch
succeeds with an empty transaction list except height 5, which fails. -/
def c3Oracle : RpcOracle :=
  { get_block_count := .ok 10
    fetch_block_from_rpc := fun h =>
      if h == 5 then .error "injected fetch failure"
      else .ok { hash := "b" ++ toString h, height := h, tx := some [] }
    get_raw_transaction := fun _ => .error "unused"
    get_block_hash := fun _ => .error "unused"
    get_block := fun _ => .error "unused" }

/-- C3: with a fetch failure injected only at height 5 in a
`sync_latest_blocks(max_blocks := 10)` run from an empty mirror against a
remote tip of 10, the run does continue past the failure and reports exactly
one error with the Syncing flag cleared — but the mirror afterwards contains
NO blocks at all (instead of blocks 1–4 and 6–10), because the async
`save_block_to_db` is invoked without `await`. -/
theorem C3_best_effort_sync_missing_await :
    (sync_latest_blocks c3Oracle ⟨emptyDB, false⟩ 10).2 =
      .ok ⟨9, 0, 1⟩ ∧
    (sync_latest_blocks c3Oracle ⟨emptyDB, false⟩ 10).1.is_syncing = false ∧
    (sync_latest_blocks c3Oracle ⟨emptyDB, false⟩ 10).1.db.blocks = [] := by
  decide

/-! ## C4: sync window computation -/

/-- A block row as prior confirmed ingestion (`get_or_fetch_block`, which
does await its save) would have produced it. -/
def blockRowAt (i h : Nat) (s : String) : BlockRow :=
  ⟨i, s, h, none, none, none, none, none, none, none, 0, none, none, none, none⟩

/-- The remote node of the C4 scenario: tip at height 2, blocks at heights 1
and 2 each embedding one full transaction payload. -/
def c4Oracle : RpcOracle :=
  { get_block_count := .ok 2
    fetch_block_from_rpc := fun h =>
      if h == 1 then .ok { hash := "h1", height := 1, tx := some [.full { txid := "t1" }] }
      else if h == 2 then .ok { hash := "h2", height := 2, tx := some [.full { txid := "t2" }] }
      else .error "beyond tip"
    get_raw_transaction := fun _ => .error "unused"
    get_block_hash := fun _ => .error "unused"
    get_block := fun _ => .error "unused" }

/-- A mirror already at height 2. -/
def c4DbTip2 : DB := { emptyDB with blocks := [blockRowAt 1 2 "h2"] }

/-- C4: the run computes the window `start = mirror_height + 1`,
`end = min(start + max_blocks - 1, remote_height)` (heights `[1, 2]` from an
empty mirror against tip 2, clipped to `[1]` for `max_blocks = 1`), returns a
zero no-op result when `start > remote_height`, and processes the window
ascending — the embedded transactions are ingested in height order — but the
blocks themselves are never ingested (`save_block_to_db` not awaited): the
block table stays empty. -/
theorem C4_sync_window_missing_await :
    syncHeights 0 10 2 = [1, 2] ∧
    syncHeights 0 1 2 = [1] ∧
    (sync_latest_blocks c4Oracle ⟨c4DbTip2, false⟩ 5).2 = .ok ⟨0, 0, 0⟩ ∧
    (sync_latest_blocks c4Oracle ⟨c4DbTip2, false⟩ 5).1.db = c4DbTip2 ∧
    ((sync_latest_blocks c4Oracle ⟨emptyDB, false⟩ 10).1.db.transactions.map
        (fun t => t.txid)) = ["t1", "t2"] ∧
    (sync_latest_blocks c4Oracle ⟨emptyDB, false⟩ 10).2 = .ok ⟨2, 2, 0⟩ ∧
    (sync_latest_blocks c4Oracle ⟨emptyDB, false⟩ 10).1.db.blocks = [] := by
  decide

/-! ## C5: reorg handling -/

/-- A mirror holding blocks 1..10 plus a transaction confirmed in block 8. -/
def c5Db : DB :=
  { emptyDB with
      blocks := (List.range' 1 10).map (fun h => blockRowAt h h ("B" ++ toString h))
      transactions := [⟨1, "tx8", some "B8", some 8, none, none, none, none,
                        none, none⟩] }

/-- The remote node of the C5 scenario: the new tip is at height 9 and every
hash-by-height lookup answers. -/
def c5Oracle : RpcOracle :=
  { get_block_count := .error "unused"
    fetch_block_from_rpc := fun _ => .error "unused"
    get_raw_transaction := fun _ => .error "unused"
    get_block_hash := fun _ => .ok "R"
    get_block := fun h =>
      if h == "newtip" then .ok { hash := "newtip", height := 9 }
      else .error "unknown block" }

/-- C5: on a mirror with blocks 1..10 and a reorg whose new tip is at a
positive height, `handle_reorg` never reaches the deletion step — the
ancestor walk dereferences `db_block.hash` on the coroutine returned by the
un-awaited async `get_block_by_height`, raising `AttributeError`, so the call
fails as a whole and deletes nothing. -/
theorem C5_handle_reorg_always_fails :
    (handle_reorg c5Oracle c5Db "newtip").1 = c5Db ∧
    (handle_reorg c5Oracle c5Db "newtip").2 =
      .error "AttributeError: coroutine object has no attribute hash" := by
  decide

/-! ## C6: reorg detection -/

theorem checkReorgLoop_eq_true_iff (o : RpcOracle) (l : List BlockRow) :
    checkReorgLoop o l = true ↔
      ∃ b ∈ l, ∃ h, o.get_block_hash b.height = .ok h ∧ h ≠ b.hash := by
  induction l with
  | nil => simp [checkReorgLoop]
  | cons b rest ih =>
    cases hb : o.get_block_hash b.height with
    | error e =>
      simp only [checkReorgLoop, hb]
      rw [ih]
      constructor
      · rintro ⟨x, hx, hP⟩
        exact ⟨x, List.mem_cons_of_mem _ hx, hP⟩
      · rintro ⟨x, hx, h, hok, hne⟩
        rcases List.mem_cons.mp hx with rfl | hx
        · rw [hb] at hok; cases hok
        · exact ⟨x, hx, h, hok, hne⟩
    | ok h =>
      simp only [checkReorgLoop, hb]
      by_cases hne : h = b.hash
      · subst hne
        simp only [bne_self_eq_false, Bool.false_eq_true, if_false]
        rw [ih]
        constructor
        · rintro ⟨x, hx, hP⟩
          exact ⟨x, List.mem_cons_of_mem _ hx, hP⟩
        · rintro ⟨x, hx, h', hok, hne'⟩
          rcases List.mem_cons.mp hx with rfl | hx
          · rw [hb] at hok
            cases hok
            exact absurd rfl hne'
          · exact ⟨x, hx, h', hok, hne'⟩
      · have hbne : (h != b.hash) = true := bne_iff_ne.mpr hne
        simp only [hbne, if_true, true_iff]
        exact ⟨b, List.mem_cons_self b rest, h, hb, hne⟩

/-- C6: `check_for_reorg` returns `true` exactly when one of the ten most
recent mirrored blocks disagrees with the hash the remote node reports for
its height, failing remote lookups being skipped; it returns `false` on an
empty mirror, and the loop short-circuits to `true` at the first mismatch
regardless of the remaining blocks. -/
theorem C6_check_for_reorg_iff (o : RpcOracle) (db : DB) :
    (check_for_reorg o db = true ↔
      ∃ b ∈ recentBlocks db 10, ∃ h,
        o.get_block_hash b.height = .ok h ∧ h ≠ b.hash) ∧
    (db.blocks = [] → check_for_reorg o db = false) ∧
    (∀ (b : BlockRow) (rest : List BlockRow) (h : String),
      o.get_block_hash b.height = .ok h → h ≠ b.hash →
      checkReorgLoop o (b :: rest) = true) := by
  refine ⟨?_, ?_, ?_⟩
  · unfold check_for_reorg
    cases hemp : (recentBlocks db 10).isEmpty with
    | true =>
      rw [List.isEmpty_iff] at hemp
      simp [hemp]
    | false =>
      simp only [hemp, Bool.false_eq_true, if_false]
      exact checkReorgLoop_eq_true_iff o (recentBlocks db 10)
  · intro hdb
    unfold check_for_reorg recentBlocks sortByHeightDesc
    rw [hdb]
    rfl
  · intro b rest h hok hne
    simp only [checkReorgLoop, hok, bne_iff_ne.mpr hne, if_true]

/-- An oracle whose hash-by-height lookups all answer `"remote"`. -/
def c6Oracle : RpcOracle :=
  { get_block_count := .error "unused"
    fetch_block_from_rpc := fun _ => .error "unused"
    get_raw_transaction := fun _ => .error "unused"
    get_block_hash := fun _ => .ok "remote"
    get_block := fun _ => .error "unused" }

/-- Witness for C6: the empty mirror reports no reorg, and a stored hash
differing from the remote one makes the loop answer `true` at once. -/
theorem C6_check_for_reorg_iff_witness :
    check_for_reorg c6Oracle emptyDB = false ∧
    checkReorgLoop c6Oracle [blockRowAt 1 3 "mine", blockRowAt 2 2 "m2"] = true := by
  constructor
  · exact (C6_check_for_reorg_iff c6Oracle emptyDB).2.1 rfl
  · exact (C6_check_for_reorg_iff c6Oracle emptyDB).2.2
      (blockRowAt 1 3 "mine") [blockRowAt 2 2 "m2"] "remote" rfl (by decide)

/-! ## C7: mempool sync stores transactions without a block link -/

theorem find?_append_of_some {α : Type} {p : α → Bool} {l₁ l₂ : List α}
    {a : α} (h : l₁.find? p = some a) : (l₁ ++ l₂).find? p = some a := by
  induction l₁ with
  | nil => cases h
  | cons x l ih =>
    cases hpx : p x with
    | true =>
      rw [List.find?_cons_of_pos _ hpx] at h
      rw [List.cons_append, List.find?_cons_of_pos _ hpx]
      exact h
    | false =>
      rw [List.find?_cons_of_neg _ (by simp [hpx])] at h
      rw [List.cons_append, List.find?_cons_of_neg _ (by simp [hpx])]
      exact ih h

theorem save_transaction_to_db_appends (db : DB) (tx : TxPayload) :
    ∃ new, (save_transaction_to_db db tx).1.transactions =
        db.transactions ++ new ∧
      ∀ r ∈ new, r.block_hash = tx.blockhash ∧ r.block_height = tx.blockheight := by
  cases hfind : get_transaction_by_txid db tx.txid with
  | some t =>
    rw [save_transaction_to_db_existing hfind]
    exact ⟨[], by simp, by simp⟩
  | none =>
    unfold save_transaction_to_db
    simp only [hfind]
    refine ⟨[_], rfl, ?_⟩
    intro r hr
    rw [List.mem_singleton] at hr
    subst hr
    exact ⟨rfl, rfl⟩

theorem syncMempoolStep_skip {db : DB} {r : MempoolResult} {tx : TxPayload}
    {t : TransactionRow} (h : get_transaction_by_txid db tx.txid = some t) :
    syncMempoolStep (db, r) tx = (db, r) := by
  simp only [syncMempoolStep, h]

theorem syncMempoolStep_save {db : DB} {r : MempoolResult} {tx : TxPayload}
    (h : get_transaction_by_txid db tx.txid = none) :
    syncMempoolStep (db, r) tx =
      ((save_transaction_to_db db
          { tx with blockhash := none, blockheight := none }).1,
       { r with synced_transactions := r.synced_transactions + 1 }) := by
  simp only [syncMempoolStep, h]

theorem sync_mempool_foldl_appends (mempool : List TxPayload) :
    ∀ (db : DB) (r : MempoolResult),
      ∃ new, (mempool.foldl syncMempoolStep (db, r)).1.transactions =
          db.transactions ++ new ∧
        ∀ t ∈ new, t.block_hash = none ∧ t.block_height = none := by
  induction mempool with
  | nil => intro db r; exact ⟨[], by simp, by simp⟩
  | cons tx rest ih =>
    intro db r
    rw [List.foldl_cons]
    cases hfind : get_transaction_by_txid db tx.txid with
    | some t =>
      rw [syncMempoolStep_skip hfind]
      exact ih db r
    | none =>
      rw [syncMempoolStep_save hfind]
      obtain ⟨new1, hnew1, hprop1⟩ := save_transaction_to_db_appends db
        { tx with blockhash := none, blockheight := none }
      obtain ⟨new2, hnew2, hprop2⟩ := ih
        (save_transaction_to_db db
          { tx with blockhash := none, blockheight := none }).1
        { r with synced_transactions := r.synced_transactions + 1 }
      refine ⟨new1 ++ new2, ?_, ?_⟩
      · rw [hnew2, hnew1, List.append_assoc]
      · intro t ht
        rcases List.mem_append.mp ht with ht | ht
        · exact hprop1 t ht
        · exact hprop2 t ht

/-- C7: every transaction newly stored by a `sync_mempool` run carries a null
block link (the confirmation fields are popped before saving), while rows
whose txid was already stored are skipped: the pre-existing rows are
preserved and looked up unchanged afterwards. -/
theorem C7_sync_mempool_null_block_link (db : DB) (mempool : List TxPayload) :
    (∃ new, (sync_mempool db mempool).1.transactions = db.transactions ++ new ∧
      ∀ t ∈ new, t.block_hash = none ∧ t.block_height = none) ∧
    (∀ txid r, get_transaction_by_txid db txid = some r →
      get_transaction_by_txid (sync_mempool db mempool).1 txid = some r) := by
  constructor
  · exact sync_mempool_foldl_appends mempool db ⟨0, 0⟩
  · intro txid r hr
    obtain ⟨new, hnew, -⟩ := sync_mempool_foldl_appends mempool db ⟨0, 0⟩
    unfold get_transaction_by_txid at hr ⊢
    unfold sync_mempool
    rw [hnew]
    exact find?_append_of_some hr

/-- Witness for C7: a mempool payload whose confirmation fields are stripped
on ingestion, next to an already-stored txid that is skipped. -/
theorem C7_sync_mempool_null_block_link_witness :
    get_transaction_by_txid
      (sync_mempool (save_transaction_to_db emptyDB { txid := "m0" }).1
        [{ txid := "m0", blockhash := some "B" },
         { txid := "m1", blockhash := some "B", blockheight := some 9 }]).1
      "m0" =
      some ⟨1, "m0", none, none, none, none, none, none, none, none⟩ := by
  exact (C7_sync_mempool_null_block_link
      (save_transaction_to_db emptyDB { txid := "m0" }).1
      [{ txid := "m0", blockhash := some "B" },
       { txid := "m1", blockhash := some "B", blockheight := some 9 }]).2
    "m0" ⟨1, "m0", none, none, none, none, none, none, none, none⟩ (by decide)

/-! ## C8: RPC error handling and retry ceiling -/

theorem executeRpcGo_unfold {α : Type} (attempt : Nat → AttemptResult α)
    (reconnectOk : Nat → Bool) (maxRetries retryCount : Nat) :
    executeRpcGo attempt reconnectOk maxRetries retryCount =
      if retryCount < maxRetries then
        match attempt retryCount with
        | .ok v => .ok v
        | .protocolError m => .err ("RPC error: " ++ m)
        | .transportError m =>
          let rc := retryCount + 1
          if rc < maxRetries then
            if reconnectOk rc then executeRpcGo attempt reconnectOk maxRetries rc
            else if rc == maxRetries - 1 then .err "reconnect failed"
            else executeRpcGo attempt reconnectOk maxRetries rc
          else .err ("max retries exhausted: " ++ m)
      else .silent := by
  rw [executeRpcGo]

theorem executeRpcGo_3_2_ne_silent {α : Type} (attempt : Nat → AttemptResult α)
    (reconnectOk : Nat → Bool) :
    executeRpcGo attempt reconnectOk 3 2 ≠ .silent := by
  rw [executeRpcGo_unfold]
  cases h2 : attempt 2 <;> simp

theorem executeRpcGo_3_1_ne_silent {α : Type} (attempt : Nat → AttemptResult α)
    (reconnectOk : Nat → Bool) :
    executeRpcGo attempt reconnectOk 3 1 ≠ .silent := by
  rw [executeRpcGo_unfold]
  cases h1 : attempt 1 with
  | ok v => simp
  | protocolError m => simp
  | transportError m =>
    simp only []
    cases hr : reconnectOk 2 with
    | true => simpa [hr] using executeRpcGo_3_2_ne_silent attempt reconnectOk
    | false => simp [hr]

/-- C8: `_execute_rpc_call` never falls off its retry loop without a result
or an error; a protocol-level rejection (`JSONRPCException`) is surfaced
immediately as the domain error, independent of the later attempts, so no
retry happens; persistent transport failures surface as a client error after
the third attempt (either the exhaustion error, or the reconnect error on the
last permitted retry); and a transport failure followed by a successful
retried attempt yields that attempt's value. -/
theorem C8_rpc_error_handling {α : Type} (attempt : Nat → AttemptResult α)
    (reconnectOk : Nat → Bool) :
    (execute_rpc_call attempt reconnectOk ≠ .silent) ∧
    (∀ m, attempt 0 = .protocolError m →
      execute_rpc_call attempt reconnectOk = .err ("RPC error: " ++ m)) ∧
    (∀ m0 m1 m2, attempt 0 = .transportError m0 →
      attempt 1 = .transportError m1 → attempt 2 = .transportError m2 →
      reconnectOk 2 = true →
      execute_rpc_call attempt reconnectOk =
        .err ("max retries exhausted: " ++ m2)) ∧
    (∀ m0 m1, attempt 0 = .transportError m0 → attempt 1 = .transportError m1 →
      reconnectOk 2 = false →
      execute_rpc_call attempt reconnectOk = .err "reconnect failed") ∧
    (∀ m v, attempt 0 = .transportError m → attempt 1 = .ok v →
      execute_rpc_call attempt reconnectOk = .ok v) := by
  refine ⟨?_, ?_, ?_, ?_, ?_⟩
  · unfold execute_rpc_call
    rw [executeRpcGo_unfold]
    cases h0 : attempt 0 with
    | ok v => simp
    | protocolError m => simp
    | transportError m =>
      simp only [ite_self]
      cases hr : reconnectOk 1 with
      | true => simpa [hr] using executeRpcGo_3_1_ne_silent attempt reconnectOk
      | false => simpa [hr] using executeRpcGo_3_1_ne_silent attempt reconnectOk
  · intro m h0
    unfold execute_rpc_call
    rw [executeRpcGo_unfold]
    simp [h0]
  · intro m0 m1 m2 h0 h1 h2 hr2
    unfold execute_rpc_call
    rw [executeRpcGo_unfold]
    simp only [h0]
    rw [show executeRpcGo attempt reconnectOk 3 1 =
        executeRpcGo attempt reconnectOk 3 2 by
      rw [executeRpcGo_unfold]
      simp [h1, hr2]]
    rw [executeRpcGo_unfold]
    simp [h2]
  · intro m0 m1 h0 h1 hr2
    unfold execute_rpc_call
    rw [executeRpcGo_unfold]
    simp only [h0]
    rw [show executeRpcGo attempt reconnectOk 3 1 = .err "reconnect failed" by
      rw [executeRpcGo_unfold]
      simp [h1, hr2]]
    simp
  · intro m v h0 h1
    unfold execute_rpc_call
    rw [executeRpcGo_unfold]
    simp only [h0]
    rw [show executeRpcGo attempt reconnectOk 3 1 = .ok v by
      rw [executeRpcGo_unfold]
      simp [h1]]
    simp

/-- Witness for C8: a protocol rejection surfaces unretried; a transport
failure on the first attempt is retried and the second attempt's value is
returned. -/
theorem C8_rpc_error_handling_witness :
    execute_rpc_call (fun _ => AttemptResult.protocolError "bad params")
        (fun _ => true) = (RpcOutcome.err "RPC error: bad params" : RpcOutcome Nat) ∧
    execute_rpc_call
        (fun k => if k == 0 then AttemptResult.transportError "refused"
                  else AttemptResult.ok 7)
        (fun _ => true) = RpcOutcome.ok 7 := by
  constructor
  · exact (C8_rpc_error_handling _ _).2.1 "bad params" rfl
  · exact (C8_rpc_error_handling _ _).2.2.2.2 "refused" 7 rfl rfl

/-! ## C10: empty mirror indistinguishable from genesis tip -/

/-- C10: `get_latest_block_height` answers `0` both for an empty mirror and
for a mirror whose tip is a genesis block at height 0; hence a sync run from
an empty mirror computes `start = 1`, its height window `[1, min(max_blocks,
remote)]` never contains height 0, and no block at height 0 (indeed, because
the block save is never awaited, no block at all) is stored by such a run. -/
theorem C10_empty_mirror_height_zero (o : RpcOracle) (g : BlockRow)
    (max_blocks : Nat) (hg : g.height = 0) :
    get_latest_block_height emptyDB = 0 ∧
    get_latest_block_height { emptyDB with blocks := [g] } = 0 ∧
    (∀ network_height,
      syncHeights (get_latest_block_height emptyDB) max_blocks network_height =
        List.range' 1 (min max_blocks network_height) ∧
      0 ∉ syncHeights (get_latest_block_height emptyDB) max_blocks
            network_height) ∧
    (∀ b ∈ (sync_latest_blocks o ⟨emptyDB, false⟩ max_blocks).1.db.blocks,
      b.height ≠ 0) := by
  refine ⟨rfl, ?_, ?_, ?_⟩
  · simp [get_latest_block_height, latestBlock, hg]
  · intro network_height
    have hrange : syncHeights (get_latest_block_height emptyDB) max_blocks
        network_height = List.range' 1 (min max_blocks network_height) := by
      have h0 : get_latest_block_height emptyDB = 0 := rfl
      rw [h0]
      unfold syncHeights
      show List.range' 1 _ = List.range' 1 _
      congr 1
      omega
    refine ⟨hrange, ?_⟩
    rw [hrange, List.mem_range'_1]
    omega
  · intro b hb
    rw [sync_latest_blocks_blocks_unchanged] at hb
    exact absurd hb (List.not_mem_nil b)

/-- Witness for C10 at a concrete genesis row and window. -/
theorem C10_empty_mirror_height_zero_witness :
    get_latest_block_height
        { emptyDB with blocks := [blockRowAt 1 0 "genesis"] } = 0 ∧
    0 ∉ syncHeights (get_latest_block_height emptyDB) 5 7 := by
  constructor
  · exact (C10_empty_mirror_height_zero c6Oracle (blockRowAt 1 0 "genesis")
      5 rfl).2.1
  · exact ((C10_empty_mirror_height_zero c6Oracle (blockRowAt 1 0 "genesis")
      5 rfl).2.2.1 7).2

/-! ## C9: address balance refines its specification -/

/-- Spec-side (from the claim's words): an output is spent exactly when some
stored input references it by matching previous-txid — the txid of the
transaction that produced the output — and output index. -/
def specSpentB (db : DB) (o : OutputRow) : Bool :=
  db.transactions.any (fun t => t.id == o.transaction_id &&
    db.inputs.any (fun i => i.prev_txid == some t.txid && i.vout == o.n))

/-- Spec-side: the sum of the values of all stored outputs decoded to the
address. -/
def specTotalReceived (db : DB) (address : String) : Int :=
  ((addressOutputs db address).map (fun o => o.value)).sum

/-- Spec-side: the sum of the values of the spent outputs among them. -/
def specTotalSpent (db : DB) (address : String) : Int :=
  (((addressOutputs db address).filter (specSpentB db)).map
    (fun o => o.value)).sum

/-- Spec-side: txids of the transactions that produced any output at the
address. -/
def specProducingTxids (db : DB) (address : String) : List String :=
  (db.transactions.filter (fun t =>
    (addressOutputs db address).any (fun o => o.transaction_id == t.id))).map
    (fun t => t.txid)

/-- Spec-side: the number of distinct transactions that produced any of the
address's outputs. -/
def specTxCount (db : DB) (address : String) : Nat :=
  (specProducingTxids db address).dedup.length

theorem findSpendingInput_isSome_iff (db : DB) (txid : String)
    (n : Option Nat) :
    (findSpendingInput db txid n).isSome = true ↔
      ∃ i ∈ db.inputs, i.prev_txid = some txid ∧ i.vout = n := by
  unfold findSpendingInput
  rw [List.find?_isSome]
  constructor
  · rintro ⟨i, hi, hp⟩
    rw [Bool.and_eq_true, beq_iff_eq, beq_iff_eq] at hp
    exact ⟨i, hi, hp⟩
  · rintro ⟨i, hi, h1, h2⟩
    refine ⟨i, hi, ?_⟩
    rw [Bool.and_eq_true, beq_iff_eq, beq_iff_eq]
    exact ⟨h1, h2⟩

theorem specSpentB_iff (db : DB) (o : OutputRow) :
    specSpentB db o = true ↔
      ∃ t ∈ db.transactions, t.id = o.transaction_id ∧
        ∃ i ∈ db.inputs, i.prev_txid = some t.txid ∧ i.vout = o.n := by
  unfold specSpentB
  rw [List.any_eq_true]
  constructor
  · rintro ⟨t, ht, hp⟩
    rw [Bool.and_eq_true, beq_iff_eq, List.any_eq_true] at hp
    obtain ⟨hid, i, hi, hp2⟩ := hp
    rw [Bool.and_eq_true, beq_iff_eq, beq_iff_eq] at hp2
    exact ⟨t, ht, hid, i, hi, hp2⟩
  · rintro ⟨t, ht, hid, i, hi, h1, h2⟩
    refine ⟨t, ht, ?_⟩
    rw [Bool.and_eq_true, beq_iff_eq, List.any_eq_true]
    refine ⟨hid, i, hi, ?_⟩
    rw [Bool.and_eq_true, beq_iff_eq, beq_iff_eq]
    exact ⟨h1, h2⟩

theorem outputJoin_eq_some {db : DB} {o : OutputRow} {p : OutputRow × String}
    (h : outputJoin db o = some p) :
    p.1 = o ∧ ∃ t, db.transactions.find?
        (fun t => t.id == o.transaction_id) = some t ∧ p.2 = t.txid := by
  unfold outputJoin at h
  cases hf : db.transactions.find? (fun t => t.id == o.transaction_id) with
  | none => rw [hf] at h; cases h
  | some t =>
    rw [hf, Option.map_some'] at h
    injection h with h
    subst h
    exact ⟨rfl, t, rfl, rfl⟩

theorem find?_unique_id {db : DB}
    (hids : db.transactions.Pairwise (fun a b => a.id ≠ b.id))
    {t t₀ : TransactionRow} {tid : Nat}
    (hf : db.transactions.find? (fun x => x.id == tid) = some t₀)
    (ht : t ∈ db.transactions) (hid : t.id = tid) : t = t₀ := by
  have h0mem := List.mem_of_find?_eq_some hf
  have h0p : t₀.id = tid := by
    have := List.find?_some hf
    rwa [beq_iff_eq] at this
  by_contra hne
  have hsym : Symmetric (fun a b : TransactionRow => a.id ≠ b.id) :=
    fun a b hab hba => hab hba.symm
  exact (hids.forall hsym ht h0mem hne) (hid.trans h0p.symm)

theorem specSpentB_eq_isSome {db : DB} {o : OutputRow} {t : TransactionRow}
    (hids : db.transactions.Pairwise (fun a b => a.id ≠ b.id))
    (hf : db.transactions.find? (fun x => x.id == o.transaction_id) = some t) :
    specSpentB db o = (findSpendingInput db t.txid o.n).isSome := by
  have hmem := List.mem_of_find?_eq_some hf
  have hidt : t.id = o.transaction_id := by
    have := List.find?_some hf
    rwa [beq_iff_eq] at this
  cases hs : specSpentB db o with
  | true =>
    obtain ⟨t', hmem', hid', i, hi, h1, h2⟩ := (specSpentB_iff db o).mp hs
    have ht' : t' = t := find?_unique_id hids hf hmem' hid'
    subst ht'
    exact ((findSpendingInput_isSome_iff db t'.txid o.n).mpr ⟨i, hi, h1, h2⟩).symm
  | false =>
    cases hr : (findSpendingInput db t.txid o.n).isSome with
    | false => rfl
    | true =>
      obtain ⟨i, hi, h1, h2⟩ := (findSpendingInput_isSome_iff db t.txid o.n).mp hr
      have := (specSpentB_iff db o).mpr ⟨t, hmem, hidt, i, hi, h1, h2⟩
      rw [hs] at this
      cases this

theorem mapM_eq_some_of_isSome {α β : Type} (f : α → Option β) :
    ∀ l : List α, (∀ a ∈ l, (f a).isSome) →
      ∃ m, l.mapM f = some m ∧
        List.Forall₂ (fun a b => f a = some b) l m := by
  intro l
  induction l with
  | nil => intro _; exact ⟨[], rfl, List.Forall₂.nil⟩
  | cons a l ih =>
    intro h
    obtain ⟨b, hb⟩ := Option.isSome_iff_exists.mp (h a (List.mem_cons_self a l))
    obtain ⟨m, hm, hrel2⟩ := ih (fun x hx => h x (List.mem_cons_of_mem a hx))
    refine ⟨b :: m, ?_, List.Forall₂.cons hb hrel2⟩
    rw [List.mapM_cons, hb, hm]
    rfl

theorem forall₂_exists_left {α β : Type} {R : α → β → Prop} :
    ∀ {l₁ : List α} {l₂ : List β}, List.Forall₂ R l₁ l₂ →
      ∀ {b}, b ∈ l₂ → ∃ a ∈ l₁, R a b := by
  intro l₁ l₂ h
  induction h with
  | nil => intro b hb; cases hb
  | cons h1 _ ih =>
    intro b hb
    rcases List.mem_cons.mp hb with rfl | hb
    · exact ⟨_, List.mem_cons_self _ _, h1⟩
    · obtain ⟨a, ha, hr⟩ := ih hb
      exact ⟨a, List.mem_cons_of_mem _ ha, hr⟩

theorem forall₂_exists_right {α β : Type} {R : α → β → Prop} :
    ∀ {l₁ : List α} {l₂ : List β}, List.Forall₂ R l₁ l₂ →
      ∀ {a}, a ∈ l₁ → ∃ b ∈ l₂, R a b := by
  intro l₁ l₂ h
  induction h with
  | nil => intro a ha; cases ha
  | cons h1 _ ih =>
    intro a ha
    rcases List.mem_cons.mp ha with rfl | ha
    · exact ⟨_, List.mem_cons_self _ _, h1⟩
    · obtain ⟨b, hb, hr⟩ := ih ha
      exact ⟨b, List.mem_cons_of_mem _ hb, hr⟩

theorem forall₂_join_map_fst {db : DB} :
    ∀ {outs : List OutputRow} {pairs : List (OutputRow × String)},
      List.Forall₂ (fun o p => outputJoin db o = some p) outs pairs →
      pairs.map Prod.fst = outs := by
  intro outs pairs h
  induction h with
  | nil => rfl
  | cons h1 _ ih =>
    rw [List.map_cons, (outputJoin_eq_some h1).1, ih]

theorem mem_spentKeys_iff (db : DB) (pairs : List (OutputRow × String))
    (p : OutputRow × String) (hp : p ∈ pairs) :
    decide ((p.2, p.1.n) ∈ spentKeys db pairs) =
      (findSpendingInput db p.2 p.1.n).isSome := by
  cases hs : (findSpendingInput db p.2 p.1.n).isSome with
  | true =>
    apply decide_eq_true
    exact List.mem_map_of_mem _ (List.mem_filter.mpr ⟨hp, hs⟩)
  | false =>
    apply decide_eq_false
    intro hmem
    obtain ⟨q, hqf, hqkey⟩ := List.mem_map.mp hmem
    obtain ⟨hq, hqs⟩ := List.mem_filter.mp hqf
    injection hqkey with h2 hn
    rw [h2, hn, hs] at hqs
    cases hqs

theorem dedup_length_eq_of_mem_iff {l₁ l₂ : List String}
    (h : ∀ x, x ∈ l₁ ↔ x ∈ l₂) : l₁.dedup.length = l₂.dedup.length := by
  rw [← List.card_toFinset, ← List.card_toFinset]
  congr 1
  ext x
  simp only [List.mem_toFinset]
  exact h x

/-- C9: whenever every output at the address resolves to its producing
transaction (as the ORM join guarantees on a well-formed store) and
transaction row ids are unique, `get_address_balance` returns exactly the
claim's quantities: total received = sum of all the address's output values,
total spent = sum of the values of the outputs referenced by some stored
input (matching previous-txid and output index), balance = received − spent,
and tx_count = the number of distinct producing transactions.  The
computation is a pure read of the store. -/
theorem C9_get_address_balance_spec (db : DB) (address : String)
    (hjoin : ∀ o ∈ addressOutputs db address, (outputJoin db o).isSome)
    (hids : db.transactions.Pairwise (fun a b => a.id ≠ b.id)) :
    ∃ r, get_address_balance db address = some r ∧
      r.total_received = specTotalReceived db address ∧
      r.total_spent = specTotalSpent db address ∧
      r.balance = specTotalReceived db address - specTotalSpent db address ∧
      r.tx_count = specTxCount db address := by
  obtain ⟨pairs, hmapM, hrel⟩ :=
    mapM_eq_some_of_isSome (outputJoin db) (addressOutputs db address) hjoin
  have hfst : pairs.map Prod.fst = addressOutputs db address :=
    forall₂_join_map_fst hrel
  have hspent : ∀ p ∈ pairs,
      (findSpendingInput db p.2 p.1.n).isSome = specSpentB db p.1 := by
    intro p hp
    obtain ⟨o, ho, hj⟩ := forall₂_exists_left hrel hp
    obtain ⟨hpo, t, hft, hsnd⟩ := outputJoin_eq_some hj
    rw [hpo, hsnd]
    exact (specSpentB_eq_isSome hids hft).symm
  have hTS : ((pairs.filter
        (fun p => decide ((p.2, p.1.n) ∈ spentKeys db pairs))).map
      (fun p => p.1.value)).sum = specTotalSpent db address := by
    rw [List.filter_congr (fun p hp => mem_spentKeys_iff db pairs p hp)]
    rw [List.filter_congr hspent]
    unfold specTotalSpent
    rw [← hfst, List.filter_map, List.map_map]
    rfl
  have hTC : (pairs.map (fun p => p.2)).dedup.length =
      specTxCount db address := by
    unfold specTxCount
    apply dedup_length_eq_of_mem_iff
    intro x
    constructor
    · intro hx
      obtain ⟨p, hp, hpx⟩ := List.mem_map.mp hx
      obtain ⟨o, ho, hj⟩ := forall₂_exists_left hrel hp
      obtain ⟨hpo, t, hft, hsnd⟩ := outputJoin_eq_some hj
      unfold specProducingTxids
      apply List.mem_map.mpr
      refine ⟨t, List.mem_filter.mpr
        ⟨List.mem_of_find?_eq_some hft, ?_⟩, by rw [← hsnd, hpx]⟩
      apply List.any_eq_true.mpr
      refine ⟨o, ho, ?_⟩
      have hp2 := List.find?_some hft
      rw [beq_iff_eq] at hp2
      exact beq_iff_eq.mpr hp2.symm
    · intro hx
      unfold specProducingTxids at hx
      obtain ⟨t, htf, htx⟩ := List.mem_map.mp hx
      obtain ⟨htmem, hany⟩ := List.mem_filter.mp htf
      obtain ⟨o, ho, hoid⟩ := List.any_eq_true.mp hany
      rw [beq_iff_eq] at hoid
      obtain ⟨p, hp, hj⟩ := forall₂_exists_right hrel ho
      obtain ⟨hpo, t₀, hft, hsnd⟩ := outputJoin_eq_some hj
      have ht0 : t = t₀ := find?_unique_id hids hft htmem hoid.symm
      apply List.mem_map.mpr
      exact ⟨p, hp, by rw [hsnd, ← ht0, htx]⟩
  have heq : get_address_balance db address =
      some { balance := ((addressOutputs db address).map
                 (fun o => o.value)).sum -
               ((pairs.filter
                   (fun p => decide ((p.2, p.1.n) ∈ spentKeys db pairs))).map
                 (fun p => p.1.value)).sum
             total_received := ((addressOutputs db address).map
               (fun o => o.value)).sum
             total_spent := ((pairs.filter
                 (fun p => decide ((p.2, p.1.n) ∈ spentKeys db pairs))).map
               (fun p => p.1.value)).sum
             tx_count := (pairs.map (fun p => p.2)).dedup.length } := by
    unfold get_address_balance
    rw [hmapM]
  refine ⟨_, heq, rfl, hTS, ?_, hTC⟩
  show ((addressOutputs db address).map (fun o => o.value)).sum -
      ((pairs.filter
          (fun p => decide ((p.2, p.1.n) ∈ spentKeys db pairs))).map
        (fun p => p.1.value)).sum =
    specTotalReceived db address - specTotalSpent db address
  rw [hTS]
  rfl

/-- A concrete store for the C9 witness: one transaction producing two
outputs at `"addr"`, the first of which is spent by a stored input. -/
def c9Db : DB :=
  { emptyDB with
      transactions := [⟨1, "T1", none, none, none, none, none, none, none,
                        none⟩]
      inputs := [⟨2, some 0, some "T1", none, none⟩]
      outputs := [⟨1, some 0, 50, none, some "addr"⟩,
                  ⟨1, some 1, 30, none, some "addr"⟩] }

/-- Witness for C9 at the concrete store. -/
theorem C9_get_address_balance_spec_witness :
    ∃ r, get_address_balance c9Db "addr" = some r ∧
      r.total_received = specTotalReceived c9Db "addr" ∧
      r.total_spent = specTotalSpent c9Db "addr" ∧
      r.balance = specTotalReceived c9Db "addr" - specTotalSpent c9Db "addr" ∧
      r.tx_count = specTxCount c9Db "addr" :=
  C9_get_address_balance_spec c9Db "addr" (by decide)
    (List.pairwise_singleton _ _)

end Explorer
